import Mathlib

/-!
Shallow embedding of the LSTM implementation in src/lstm.py, together with
proofs of the specification claims about it.

Matrices are rational-valued with dimensions carried in the types: a numpy
array of shape (m, k) becomes Mat m k.  The elementwise activation functions
(tanh, sigmoid and the derivative d_tanh), the loss pair, and the dense output
projection live in functions.py, which is outside src/; they enter every
definition below as injected parameters, matching the collaborator contracts
described in the specification.  Every definition cites the lines of
src/lstm.py it embeds.
-/

namespace LSTM

open scoped Matrix

variable {h n B od m k p q : ℕ} {α : Type}

/-- Rational matrix of shape (m, k), the embedding of a numpy array. -/
abbrev Mat (m k : ℕ) : Type := Matrix (Fin m) (Fin k) ℚ

/-- Elementwise map over a matrix (a numpy ufunc application). -/
def emapM (φ : ℚ → ℚ) (M : Mat m k) : Mat m k :=
  Matrix.of fun i j => φ (M i j)

/-- Elementwise (Hadamard) product, numpy `*` on same-shaped arrays. -/
def emul (A C : Mat m k) : Mat m k :=
  Matrix.of fun i j => A i j * C i j

/-- Matrix product, np.dot. -/
def mdot (A : Mat m k) (C : Mat k p) : Mat m p :=
  Matrix.of fun i j => ∑ t, A i t * C t j

/-- Vertical stacking, np.vstack: A on top of C. -/
def vstack (A : Mat p k) (C : Mat q k) : Mat (p + q) k :=
  Matrix.of fun i j => Fin.addCases (fun i0 => A i0 j) (fun i1 => C i1 j) i

/-- Addition of a (m, 1) bias with numpy broadcasting across columns. -/
def addBias (M : Mat m k) (b : Mat m 1) : Mat m k :=
  Matrix.of fun i j => M i j + b i 0

/-- np.sum(.., axis=1, keepdims=True): row sums as a column vector. -/
def rowSum (M : Mat m k) : Mat m 1 :=
  Matrix.of fun i _ => ∑ j, M i j

/-- Scalar minus array, with numpy scalar broadcasting. -/
def scalarSub (s : ℚ) (M : Mat m k) : Mat m k :=
  Matrix.of fun i j => s - M i j

/-- Array times scalar, with numpy scalar broadcasting. -/
def scaleE (M : Mat m k) (s : ℚ) : Mat m k :=
  Matrix.of fun i j => M i j * s

/-- np.clip on one element: maximum with the lower bound, then minimum
with the upper bound. -/
def clipQ (x lo hi : ℚ) : ℚ := min (max x lo) hi

/-- The slice w.T[:h, :] used on lstm.py line 177: the transpose of w
restricted to the first h rows of the transpose, that is the first h
columns of w, transposed. -/
def firstColsT (w : Mat h (h + n)) : Mat h h :=
  Matrix.of fun i j => w j (Fin.castAdd n i)

/-- np.stack on a python list of equally shaped slices: it raises on an
empty list (modelled as none) and otherwise packs the slices back into a
single time-indexed array (modelled as the list itself). -/
def npStack : List α → Option (List α)
  | [] => none
  | l => some l

/-- Gate labels in the source order c, u, o, f (lstm.py line 118). -/
inductive Gate
  | c
  | u
  | o
  | f

/-- Weight and bias of one gate (lstm.py lines 114-119).  The same record
shape carries one gate on the gradient side (lines 121-126). -/
structure GateRec (h n : ℕ) where
  w : Mat h (h + n)
  b : Mat h 1

/-- The four gate records, the embedding of the dicts self.params and of
gradient records, both keyed by the gates c, u, o, f. -/
structure CellRec (h n : ℕ) where
  c : GateRec h n
  u : GateRec h n
  o : GateRec h n
  f : GateRec h n

/-- Lookup of one gate in a four-gate record. -/
def CellRec.get (r : CellRec h n) : Gate → GateRec h n
  | .c => r.c
  | .u => r.u
  | .o => r.o
  | .f => r.f

/-- init_grads (lstm.py lines 121-126): zeros shaped like the params. -/
def initGrads (h n : ℕ) : CellRec h n :=
  ⟨⟨0, 0⟩, ⟨0, 0⟩, ⟨0, 0⟩, ⟨0, 0⟩⟩

/-- Per-gate `+=` accumulation of two gradient records
(lstm.py lines 76-78). -/
def addGrads (g1 g2 : CellRec h n) : CellRec h n :=
  ⟨⟨g1.c.w + g2.c.w, g1.c.b + g2.c.b⟩, ⟨g1.u.w + g2.u.w, g1.u.b + g2.u.b⟩,
   ⟨g1.o.w + g2.o.w, g1.o.b + g2.o.b⟩, ⟨g1.f.w + g2.f.w, g1.f.b + g2.f.b⟩⟩

/-- State dict produced by one cell forward step (lstm.py lines 142-151). -/
structure CellState (h n B : ℕ) where
  c_in : Mat h B
  z : Mat (h + n) B
  c : Mat h B
  u : Mat h B
  o : Mat h B
  f : Mat h B
  c_out : Mat h B
  a_out : Mat h B

/-- Cache dict of per-gate activation inputs (lstm.py lines 146-148). -/
structure CellCache (h n B : ℕ) where
  c : Mat h B
  u : Mat h B
  o : Mat h B
  f : Mat h B

/-- Modelled from the spec: the activation collaborators tanh and sigmoid of
functions.py (not under src/) follow the contract activate(pre) = (output,
cache), with the output elementwise and the cache the saved pre-activation
input.  The elementwise nonlinearity itself is the injected φ. -/
def actPair (φ : ℚ → ℚ) (M : Mat m k) : Mat m k × Mat m k :=
  (emapM φ M, M)

/-- The dispatch table self.funcs (lstm.py lines 107-112): tanh for the
candidate gate, sigmoid for the other three, both nonlinearities injected. -/
def cellFuncs (tF sF : ℚ → ℚ) : Gate → (ℚ → ℚ)
  | .c => tF
  | _ => sF

/-- Modelled from the spec: d_tanh of functions.py (not under src/).  The spec
backward algorithm states the factor (1 - tanh(c_out)^2) for the gradient
through tanh, so d_tanh applies x ↦ 1 - tanh(x)^2 elementwise, with tanh the
injected collaborator. -/
def d_tanhM (tF : ℚ → ℚ) (M : Mat m k) : Mat m k :=
  Matrix.of fun i j => 1 - tF (M i j) ^ 2

/-- LSTM_Cell.forward (lstm.py lines 128-153).  aPrev and cPrev are optional;
none defaults to np.zeros((hidden_dim, x.shape[0])) (lines 139-140). -/
def cellForward (P : CellRec h n) (tF sF : ℚ → ℚ) (x : Mat B n)
    (aPrev cPrev : Option (Mat h B)) : CellState h n B × CellCache h n B :=
  let a_prev := aPrev.getD 0
  let c_prev := cPrev.getD 0
  let z := vstack a_prev xᵀ
  let rc := actPair (cellFuncs tF sF .c) (addBias (mdot (P.get .c).w z) (P.get .c).b)
  let ru := actPair (cellFuncs tF sF .u) (addBias (mdot (P.get .u).w z) (P.get .u).b)
  let ro := actPair (cellFuncs tF sF .o) (addBias (mdot (P.get .o).w z) (P.get .o).b)
  let rg := actPair (cellFuncs tF sF .f) (addBias (mdot (P.get .f).w z) (P.get .f).b)
  let c_out := emul rg.1 c_prev + emul ru.1 rc.1
  let a_out := emul ro.1 (actPair tF c_out).1
  (⟨c_prev, z, rc.1, ru.1, ro.1, rg.1, c_out, a_out⟩, ⟨rc.2, ru.2, ro.2, rg.2⟩)

/-- LSTM_Cell.backward (lstm.py lines 155-183).  The da_in accumulation
mirrors the source loop over the gates c, u, o, f starting from
np.zeros_like(da_next) (lines 175-177). -/
def cellBackward (P : CellRec h n) (tF : ℚ → ℚ) (st : CellState h n B)
    (da_next dc_next : Mat h B) : Mat h B × Mat h B × CellRec h n :=
  let dc_out := emul (emul st.o da_next) (d_tanhM tF st.c_out) + dc_next
  let dC := emul (emul (scalarSub 1 (emapM (fun v => v ^ 2) st.c)) st.u) dc_out
  let dU := emul (emul (emul st.u (scalarSub 1 st.u)) st.c) dc_out
  let dO := emul (emul (emul st.o (scalarSub 1 st.o)) (actPair tF st.c_out).1) da_next
  let dF := emul (emul (emul st.f (scalarSub 1 st.f)) st.c_in) dc_out
  let da_in := (0 : Mat h B) + mdot (firstColsT (P.get .c).w) dC
      + mdot (firstColsT (P.get .u).w) dU + mdot (firstColsT (P.get .o).w) dO
      + mdot (firstColsT (P.get .f).w) dF
  let grads : CellRec h n :=
    ⟨⟨mdot dC st.zᵀ, rowSum dC⟩, ⟨mdot dU st.zᵀ, rowSum dU⟩,
     ⟨mdot dO st.zᵀ, rowSum dO⟩, ⟨mdot dF st.zᵀ, rowSum dF⟩⟩
  let dc_in := emul dc_out st.f
  (da_in, dc_in, grads)

/-- np.clip applied to one gate record when a bound is configured
(lstm.py lines 189-191); with clip absent the record passes unchanged. -/
def clipGate (clip : Option ℚ) (gr : GateRec h n) : GateRec h n :=
  match clip with
  | none => gr
  | some bd => ⟨emapM (fun v => clipQ v (-bd) bd) gr.w, emapM (fun v => clipQ v (-bd) bd) gr.b⟩

/-- Clipping applied to all four gates of a gradient record. -/
def cellClip (clip : Option ℚ) (g : CellRec h n) : CellRec h n :=
  ⟨clipGate clip g.c, clipGate clip g.u, clipGate clip g.o, clipGate clip g.f⟩

/-- One gate of the in-place step params -= grads * learning_rate
(lstm.py lines 192-193). -/
def updGate (pg gr : GateRec h n) (lr : ℚ) : GateRec h n :=
  ⟨pg.w - scaleE gr.w lr, pg.b - scaleE gr.b lr⟩

/-- Observable outcome of update_params.  params is self.params after the
call.  grads is the gradient record the caller passed in, as it stands after
the call: the source reassigns the inner dict entries of that same record
when clipping, so the caller observes the clipped entries.  stored is
self.grads, set when store_grads is on; the source binds self.grads to the
passed record before the loop, and the in-place clipping inside the loop is
visible through that reference, so the retained record ends post-clip. -/
structure UpdateResult (h n : ℕ) where
  params : CellRec h n
  grads : CellRec h n
  stored : Option (CellRec h n)

/-- LSTM_Cell.update_params (lstm.py lines 185-193), with the loop over the
gates c, u, o, f unrolled through cellClip and updGate. -/
def updateParams (P g : CellRec h n) (clip : Option ℚ) (lr : ℚ) (store : Bool) :
    UpdateResult h n :=
  let g1 := cellClip clip g
  let P1 : CellRec h n :=
    ⟨updGate P.c g1.c lr, updGate P.u g1.u lr, updGate P.o g1.o lr, updGate P.f g1.f lr⟩
  ⟨P1, g1, if store then some g1 else none⟩

/-- The reverse loop of LSTM.backward (lstm.py lines 73-78): steps lists the
(state, direct output gradient) pairs in traversal order, da and dc carry the
recurrent gradients, g the running per-gate totals.  Line 74 adds the direct
gradient into the carried da before the cell backward call of line 75. -/
def bptt (P : CellRec h n) (tF : ℚ → ℚ) :
    List (CellState h n B × Mat h B) → Mat h B → Mat h B → CellRec h n →
    Mat h B × Mat h B × CellRec h n
  | [], da, dc, g => (da, dc, g)
  | (st, dA) :: rest, da, dc, g =>
    let r := cellBackward P tF st (da + dA) dc
    bptt P tF rest r.1 r.2.1 (addGrads g r.2.2)

/-- Spec side: the list of per-step gradient records Cell.backward returns
along the reverse traversal, with the direct output gradient of each step
added into the carried activation gradient before the call, and the returned
da_in and dc_in chained to the next (earlier) step. -/
def stepChain (P : CellRec h n) (tF : ℚ → ℚ) :
    List (CellState h n B × Mat h B) → Mat h B → Mat h B → List (CellRec h n)
  | [], _, _ => []
  | (st, dA) :: rest, da, dc =>
    let r := cellBackward P tF st (da + dA) dc
    r.2.2 :: stepChain P tF rest r.1 r.2.1

/-- Spec side: elementwise sum of a list of gradient records. -/
def gradsSum (l : List (CellRec h n)) : CellRec h n :=
  l.foldl addGrads (initGrads h n)

/-- The gradient record LSTM.backward accumulates and hands to update_params
(lstm.py lines 70-79): zero-initialized carried gradients, zero-initialized
totals, traversal over zip(reversed(states), reversed(das)). -/
def seqBackwardGrads (P : CellRec h n) (tF : ℚ → ℚ)
    (states : List (CellState h n B)) (das : List (Mat h B)) : CellRec h n :=
  (bptt P tF (states.reverse.zip das.reverse) 0 0 (initGrads h n)).2.2

/-- LSTM.backward (lstm.py lines 54-81).  The loss derivative dLossF and the
output-projection backward denseBack are injected collaborators from
functions.py (outside src/); das embeds line 69.  The caches argument of the
source is unused there as well.  The closing self.activation.update_params()
call mutates only the collaborator, so it has no image here. -/
def seqBackward (P : CellRec h n) (tF : ℚ → ℚ)
    (dLossF : List (Mat B od) → List (Mat B od) → List (Mat B od))
    (denseBack : Mat B od → Mat B h) (clip : Option ℚ) (lr : ℚ) (store : Bool)
    (states : List (CellState h n B)) (preds targets : List (Mat B od)) :
    UpdateResult h n × List (Mat B od) × List (Mat B od) :=
  let das := (dLossF preds targets).map fun m => (denseBack m)ᵀ
  (updateParams P (seqBackwardGrads P tF states das) clip lr store, preds, targets)

/-- The forward loop of LSTM.forward (lstm.py lines 45-51): one cell step per
time slice, the dense collaborator denseF producing each prediction, and the
running activation and memory rethreaded as the next previous state. -/
def seqSteps (P : CellRec h n) (tF sF : ℚ → ℚ) (denseF : Mat h B → Mat od B) :
    List (Mat B n) → Option (Mat h B) → Option (Mat h B) →
    List (CellState h n B) × List (CellCache h n B) × List (Mat B od)
  | [], _, _ => ([], [], [])
  | xt :: rest, aPrev, cPrev =>
    let r := cellForward P tF sF xt aPrev cPrev
    let tail := seqSteps P tF sF denseF rest (some r.1.a_out) (some r.1.c_out)
    (r.1 :: tail.1, r.2 :: tail.2.1, (denseF r.1.a_out)ᵀ :: tail.2.2)

/-- LSTM.forward (lstm.py lines 28-52).  The two np.stack calls of line 52
are evaluated left to right; a failure of either makes the whole call fail. -/
def seqForward (P : CellRec h n) (tF sF : ℚ → ℚ) (denseF : Mat h B → Mat od B)
    (xs : List (Mat B n)) (ys : List (Mat B od)) (a0 c0 : Option (Mat h B)) :
    Option (List (CellState h n B) × List (CellCache h n B) × List (Mat B od) × List (Mat B od)) :=
  let r := seqSteps P tF sF denseF xs a0 c0
  match npStack r.2.2 with
  | none => none
  | some ps =>
    match npStack ys with
    | none => none
    | some ysS => some (r.1, r.2.1, ps, ysS)

/-- LSTM.fit (lstm.py lines 83-85), threading the cell params explicitly.
The first component is self.cell.params once the call ends: a failing forward
propagates out before LSTM.backward runs, so the params pass through
untouched and the second component is none; on success the single
update_params result is installed and the stacked per-step losses (the lossF
collaborator applied to each prediction-target pair, line 85) are returned. -/
def fit (P : CellRec h n) (tF sF : ℚ → ℚ) (denseF : Mat h B → Mat od B)
    (dLossF : List (Mat B od) → List (Mat B od) → List (Mat B od))
    (denseBack : Mat B od → Mat B h) (lossF : Mat B od → Mat B od → α)
    (clip : Option ℚ) (lr : ℚ) (store : Bool)
    (xs : List (Mat B n)) (ys : List (Mat B od)) (a0 c0 : Option (Mat h B)) :
    CellRec h n × Option (List α) :=
  match seqForward P tF sF denseF xs ys a0 c0 with
  | none => (P, none)
  | some (states, _caches, preds, targets) =>
    let r := seqBackward P tF dLossF denseBack clip lr store states preds targets
    (r.1.params, npStack ((r.2.1.zip r.2.2).map fun pt => lossF pt.1 pt.2))

/-- Replacement of the x-input columns (columns h .. h+n-1) of every gate
weight matrix by arbitrary other entries, keeping the first h columns. -/
def replaceW (w : Mat h (h + n)) (Rm : Mat h n) : Mat h (h + n) :=
  Matrix.of fun i j => Fin.addCases (fun j0 : Fin h => w i (Fin.castAdd n j0)) (fun j1 : Fin n => Rm i j1) j

/-- replaceW applied gatewise to a parameter record. -/
def replaceXcols (P : CellRec h n) (R : Gate → Mat h n) : CellRec h n :=
  ⟨⟨replaceW P.c.w (R .c), P.c.b⟩, ⟨replaceW P.u.w (R .u), P.u.b⟩,
   ⟨replaceW P.o.w (R .o), P.o.b⟩, ⟨replaceW P.f.w (R .f), P.f.b⟩⟩

/-- Concrete parameter record on the smallest dimensions, for witnesses. -/
def exP : CellRec 1 1 := initGrads 1 1

/-- Concrete dense forward collaborator, for witnesses. -/
def exDense : Mat 1 1 → Mat 1 1 := id

/-- Concrete loss derivative collaborator, for witnesses. -/
def exDLoss : List (Mat 1 1) → List (Mat 1 1) → List (Mat 1 1) := fun pr _ => pr

/-- Concrete dense backward collaborator, for witnesses. -/
def exDBack : Mat 1 1 → Mat 1 1 := id

/-- Concrete loss collaborator, for witnesses. -/
def exLoss : Mat 1 1 → Mat 1 1 → ℚ := fun _ _ => 0

/-- Claim C1: Cell.forward stacks a_prev over the transpose of x into z, puts
each gate output through that gate activation applied to weight · z + bias,
and returns c_out = forget ⊙ c_prev + update ⊙ candidate and
a_out = output ⊙ tanh(c_out), elementwise. -/
theorem forward_matches_gate_equations (P : CellRec h n) (tF sF : ℚ → ℚ)
    (x : Mat B n) (aP cP : Mat h B) :
    (cellForward P tF sF x (some aP) (some cP)).1 =
      (let z := vstack aP xᵀ
       let cand := emapM tF (addBias (mdot P.c.w z) P.c.b)
       let upd := emapM sF (addBias (mdot P.u.w z) P.u.b)
       let outg := emapM sF (addBias (mdot P.o.w z) P.o.b)
       let forg := emapM sF (addBias (mdot P.f.w z) P.f.b)
       let c_out := emul forg cP + emul upd cand
       ⟨cP, z, cand, upd, outg, forg, c_out, emul outg (emapM tF c_out)⟩) := rfl

/-- Claim C2: Cell.backward computes
dc_out = output ⊙ da_next ⊙ (1 − tanh(c_out)²) + dc_next, the four local gate
gradients by the stated formulas, each weight gradient as the local gradient
times the transpose of z, each bias gradient as the row sum over the batch,
and dc_in = dc_out ⊙ forget. -/
theorem backward_gradient_formulas (P : CellRec h n) (tF : ℚ → ℚ)
    (st : CellState h n B) (da_next dc_next : Mat h B) :
    (cellBackward P tF st da_next dc_next).2 =
      (let dc_out := emul (emul st.o da_next)
          (scalarSub 1 (emapM (fun v => tF v ^ 2) st.c_out)) + dc_next
       let dC := emul (emul (scalarSub 1 (emapM (fun v => v ^ 2) st.c)) st.u) dc_out
       let dU := emul (emul (emul st.u (scalarSub 1 st.u)) st.c) dc_out
       let dO := emul (emul (emul st.o (scalarSub 1 st.o)) (emapM tF st.c_out)) da_next
       let dF := emul (emul (emul st.f (scalarSub 1 st.f)) st.c_in) dc_out
       (emul dc_out st.f,
        (⟨⟨mdot dC st.zᵀ, rowSum dC⟩, ⟨mdot dU st.zᵀ, rowSum dU⟩,
          ⟨mdot dO st.zᵀ, rowSum dO⟩, ⟨mdot dF st.zᵀ, rowSum dF⟩⟩ : CellRec h n))) := rfl

/-- Restriction of the first h columns of a gate weight matrix is unchanged
by replacement of the x-input columns. -/
theorem firstColsT_replaceW (w : Mat h (h + n)) (Rm : Mat h n) :
    firstColsT (replaceW w Rm) = firstColsT w := by
  ext i j
  simp [firstColsT, replaceW, Fin.addCases_left]

/-- Claim C3: the da_in of Cell.backward is the sum over the four gates of
the transpose of the first hidden_dim columns of that gate weight matrix
times the gate local gradient, and the x-input columns of the weights do not
enter: replacing them arbitrarily leaves the whole backward result unchanged. -/
theorem da_in_routes_hidden_only (P : CellRec h n) (tF : ℚ → ℚ)
    (st : CellState h n B) (da_next dc_next : Mat h B) :
    ((cellBackward P tF st da_next dc_next).1 =
      (let dc_out := emul (emul st.o da_next)
          (scalarSub 1 (emapM (fun v => tF v ^ 2) st.c_out)) + dc_next
       let dC := emul (emul (scalarSub 1 (emapM (fun v => v ^ 2) st.c)) st.u) dc_out
       let dU := emul (emul (emul st.u (scalarSub 1 st.u)) st.c) dc_out
       let dO := emul (emul (emul st.o (scalarSub 1 st.o)) (emapM tF st.c_out)) da_next
       let dF := emul (emul (emul st.f (scalarSub 1 st.f)) st.c_in) dc_out
       mdot (firstColsT P.c.w) dC + mdot (firstColsT P.u.w) dU
         + mdot (firstColsT P.o.w) dO + mdot (firstColsT P.f.w) dF))
    ∧ ∀ R : Gate → Mat h n,
        cellBackward (replaceXcols P R) tF st da_next dc_next =
          cellBackward P tF st da_next dc_next := by
  constructor
  · dsimp only [cellBackward, CellRec.get]
    rw [zero_add]
    rfl
  · intro R
    dsimp only [cellBackward, replaceXcols, CellRec.get]
    rw [firstColsT_replaceW, firstColsT_replaceW, firstColsT_replaceW, firstColsT_replaceW]

/-- Claim C7: Cell.forward with absent previous state returns exactly the
state and cache obtained from explicit all-zero previous activation and
memory; the result types Mat h B for a_out and c_out are the shape
(hidden_dim, batch_size), and the call is total, not an error. -/
theorem forward_none_defaults_zero (P : CellRec h n) (tF sF : ℚ → ℚ) (x : Mat B n) :
    cellForward P tF sF x none none =
      cellForward P tF sF x (some (0 : Mat h B)) (some (0 : Mat h B)) := rfl

/-- The gradient component of the reverse loop is the left fold of the
per-step gradient records over the running total. -/
theorem bptt_grads_foldl (P : CellRec h n) (tF : ℚ → ℚ) :
    ∀ (steps : List (CellState h n B × Mat h B)) (da dc : Mat h B) (g : CellRec h n),
      (bptt P tF steps da dc g).2.2 = (stepChain P tF steps da dc).foldl addGrads g := by
  intro steps
  induction steps with
  | nil => intro da dc g; rfl
  | cons pr rest ih =>
    intro da dc g
    obtain ⟨st, dA⟩ := pr
    simp only [bptt, stepChain, List.foldl_cons]
    exact ih _ _ _

/-- Claim C4: the record LSTM.backward hands to update_params is the
elementwise sum over the time steps of the per-step weight and bias gradients
Cell.backward returns along the reverse traversal; at each step the direct
output gradient is added into the carried da_next (never overwriting it)
before the Cell.backward call; and the sequence backward passes exactly this
accumulated record to update_params. -/
theorem bptt_accumulates_sum (P : CellRec h n) (tF : ℚ → ℚ)
    (states : List (CellState h n B)) (das : List (Mat h B))
    (dLossF : List (Mat B od) → List (Mat B od) → List (Mat B od))
    (denseBack : Mat B od → Mat B h) (clip : Option ℚ) (lr : ℚ) (store : Bool)
    (preds targets : List (Mat B od)) :
    seqBackwardGrads P tF states das
        = gradsSum (stepChain P tF (states.reverse.zip das.reverse) 0 0)
      ∧ (∀ (st : CellState h n B) (dA : Mat h B)
          (rest : List (CellState h n B × Mat h B)) (da dc : Mat h B) (g : CellRec h n),
          bptt P tF ((st, dA) :: rest) da dc g =
            bptt P tF rest (cellBackward P tF st (da + dA) dc).1
              (cellBackward P tF st (da + dA) dc).2.1
              (addGrads g (cellBackward P tF st (da + dA) dc).2.2))
      ∧ (seqBackward P tF dLossF denseBack clip lr store states preds targets).1 =
          updateParams P
            (seqBackwardGrads P tF states
              ((dLossF preds targets).map fun m => (denseBack m)ᵀ))
            clip lr store := by
  refine ⟨?_, ?_, rfl⟩
  · exact bptt_grads_foldl P tF (states.reverse.zip das.reverse) 0 0 (initGrads h n)
  · intro st dA rest da dc g
    rfl

/-- Lower bound of a clipped element for a nonnegative bound. -/
theorem clipQ_lb (x bd : ℚ) (hk : 0 ≤ bd) : -bd ≤ clipQ x (-bd) bd :=
  le_min (le_max_right x (-bd)) (neg_le_self hk)

/-- Upper bound of a clipped element. -/
theorem clipQ_ub (x bd : ℚ) : clipQ x (-bd) bd ≤ bd :=
  min_le_right _ _

/-- Claim C5: with a configured bound k, update_params first clamps every
gradient element into [−k, k], then subtracts learning_rate times the clamped
gradient from each weight and bias element in place, so every applied update
element lies in [−k·lr, k·lr]; with no bound the gradients are used
unclamped. -/
theorem update_clips_then_steps (P g : CellRec h n) (bd lr : ℚ) (store : Bool)
    (gt : Gate) (i : Fin h) (j : Fin (h + n)) (jb : Fin 1)
    (hk : 0 ≤ bd) (hlr : 0 ≤ lr) :
    (-bd ≤ ((cellClip (some bd) g).get gt).w i j
      ∧ ((cellClip (some bd) g).get gt).w i j ≤ bd) ∧
    (-bd ≤ ((cellClip (some bd) g).get gt).b i jb
      ∧ ((cellClip (some bd) g).get gt).b i jb ≤ bd) ∧
    ((updateParams P g (some bd) lr store).params.get gt).w i j
      = (P.get gt).w i j - ((cellClip (some bd) g).get gt).w i j * lr ∧
    ((updateParams P g (some bd) lr store).params.get gt).b i jb
      = (P.get gt).b i jb - ((cellClip (some bd) g).get gt).b i jb * lr ∧
    (-(bd * lr) ≤ (P.get gt).w i j - ((updateParams P g (some bd) lr store).params.get gt).w i j
      ∧ (P.get gt).w i j - ((updateParams P g (some bd) lr store).params.get gt).w i j ≤ bd * lr) ∧
    (-(bd * lr) ≤ (P.get gt).b i jb - ((updateParams P g (some bd) lr store).params.get gt).b i jb
      ∧ (P.get gt).b i jb - ((updateParams P g (some bd) lr store).params.get gt).b i jb ≤ bd * lr) ∧
    ((updateParams P g none lr store).params.get gt).w i j
      = (P.get gt).w i j - (g.get gt).w i j * lr ∧
    ((updateParams P g none lr store).params.get gt).b i jb
      = (P.get gt).b i jb - (g.get gt).b i jb * lr := by
  have hw : ((cellClip (some bd) g).get gt).w i j = clipQ ((g.get gt).w i j) (-bd) bd := by
    cases gt <;> rfl
  have hb : ((cellClip (some bd) g).get gt).b i jb = clipQ ((g.get gt).b i jb) (-bd) bd := by
    cases gt <;> rfl
  have hpw : ((updateParams P g (some bd) lr store).params.get gt).w i j
      = (P.get gt).w i j - ((cellClip (some bd) g).get gt).w i j * lr := by
    cases gt <;> rfl
  have hpb : ((updateParams P g (some bd) lr store).params.get gt).b i jb
      = (P.get gt).b i jb - ((cellClip (some bd) g).get gt).b i jb * lr := by
    cases gt <;> rfl
  have hw1 : -bd ≤ ((cellClip (some bd) g).get gt).w i j := by
    rw [hw]; exact clipQ_lb _ _ hk
  have hw2 : ((cellClip (some bd) g).get gt).w i j ≤ bd := by
    rw [hw]; exact clipQ_ub _ _
  have hb1 : -bd ≤ ((cellClip (some bd) g).get gt).b i jb := by
    rw [hb]; exact clipQ_lb _ _ hk
  have hb2 : ((cellClip (some bd) g).get gt).b i jb ≤ bd := by
    rw [hb]; exact clipQ_ub _ _
  refine ⟨⟨hw1, hw2⟩, ⟨hb1, hb2⟩, hpw, hpb, ⟨?_, ?_⟩, ⟨?_, ?_⟩, ?_, ?_⟩
  · rw [hpw, sub_sub_cancel]
    have := mul_le_mul_of_nonneg_right hw1 hlr
    linarith
  · rw [hpw, sub_sub_cancel]
    have := mul_le_mul_of_nonneg_right hw2 hlr
    linarith
  · rw [hpb, sub_sub_cancel]
    have := mul_le_mul_of_nonneg_right hb1 hlr
    linarith
  · rw [hpb, sub_sub_cancel]
    have := mul_le_mul_of_nonneg_right hb2 hlr
    linarith
  · cases gt <;> rfl
  · cases gt <;> rfl

/-- Claim C6: with the store option on, the record retained on the cell after
update_params is the post-clip record (the clamped gradients when a bound is
configured, the record itself when not), and the store option has no effect
on the parameter values produced. -/
theorem stored_grads_post_clip (P g : CellRec h n) (bd lr : ℚ) :
    (updateParams P g (some bd) lr true).stored = some (cellClip (some bd) g)
  ∧ (updateParams P g none lr true).stored = some g
  ∧ ∀ (clip : Option ℚ) (store1 store2 : Bool),
      (updateParams P g clip lr store1).params = (updateParams P g clip lr store2).params :=
  ⟨rfl, rfl, fun _ _ _ => rfl⟩

/-- Claim C9: the gradient record passed by the caller is, after the call,
the clamped record when a bound is configured (every weight and bias entry
replaced by min(max(entry, −k), k)), and untouched when the bound is None. -/
theorem update_mutates_caller_grads (P g : CellRec h n) (bd lr : ℚ) (store : Bool) :
    (updateParams P g (some bd) lr store).grads = cellClip (some bd) g
  ∧ (∀ (gt : Gate) (i : Fin h) (j : Fin (h + n)),
      ((updateParams P g (some bd) lr store).grads.get gt).w i j
        = min (max ((g.get gt).w i j) (-bd)) bd)
  ∧ (∀ (gt : Gate) (i : Fin h) (jb : Fin 1),
      ((updateParams P g (some bd) lr store).grads.get gt).b i jb
        = min (max ((g.get gt).b i jb) (-bd)) bd)
  ∧ (updateParams P g none lr store).grads = g := by
  refine ⟨rfl, ?_, ?_, rfl⟩
  · intro gt i j
    cases gt <;> rfl
  · intro gt i jb
    cases gt <;> rfl

/-- Claim C8: Cell.forward and Cell.backward are pure in the cell params
(they are functions of the params that return none of them), the only
parameter mutation in a fit is the single update_params call after the full
reverse traversal, and a fit whose forward pass fails returns with the
params exactly as they were. -/
theorem no_partial_update_on_failure (P : CellRec h n) (tF sF : ℚ → ℚ)
    (denseF : Mat h B → Mat od B)
    (dLossF : List (Mat B od) → List (Mat B od) → List (Mat B od))
    (denseBack : Mat B od → Mat B h) (lossF : Mat B od → Mat B od → α)
    (clip : Option ℚ) (lr : ℚ) (store : Bool)
    (xs : List (Mat B n)) (ys : List (Mat B od)) (a0 c0 : Option (Mat h B))
    (hfail : seqForward P tF sF denseF xs ys a0 c0 = none) :
    fit P tF sF denseF dLossF denseBack lossF clip lr store xs ys a0 c0 = (P, none) := by
  unfold fit
  rw [hfail]

/-- Claim C10: with zero time steps the sequence forward fails at the
stacking of the empty prediction list, so a fit on a zero-length sequence
fails before any parameter update and leaves the params unchanged. -/
theorem empty_sequence_forward_fails (P : CellRec h n) (tF sF : ℚ → ℚ)
    (denseF : Mat h B → Mat od B)
    (dLossF : List (Mat B od) → List (Mat B od) → List (Mat B od))
    (denseBack : Mat B od → Mat B h) (lossF : Mat B od → Mat B od → α)
    (clip : Option ℚ) (lr : ℚ) (store : Bool)
    (ys : List (Mat B od)) (a0 c0 : Option (Mat h B)) :
    seqForward P tF sF denseF ([] : List (Mat B n)) ys a0 c0 = none
  ∧ fit P tF sF denseF dLossF denseBack lossF clip lr store
      ([] : List (Mat B n)) ys a0 c0 = (P, none) :=
  ⟨rfl, rfl⟩

/-- Witness for claim C5 at concrete input: bound 1, learning rate 1,
candidate gate, element (0, 0). -/
theorem update_clips_then_steps_witness :
    0 ≤ (1 : ℚ) ∧ 0 ≤ (1 : ℚ) ∧
    ((-(1 : ℚ) ≤ ((cellClip (some 1) exP).get .c).w 0 0
      ∧ ((cellClip (some 1) exP).get .c).w 0 0 ≤ 1) ∧
    (-(1 : ℚ) ≤ ((cellClip (some 1) exP).get .c).b 0 0
      ∧ ((cellClip (some 1) exP).get .c).b 0 0 ≤ 1) ∧
    ((updateParams exP exP (some 1) 1 false).params.get .c).w 0 0
      = (exP.get .c).w 0 0 - ((cellClip (some 1) exP).get .c).w 0 0 * 1 ∧
    ((updateParams exP exP (some 1) 1 false).params.get .c).b 0 0
      = (exP.get .c).b 0 0 - ((cellClip (some 1) exP).get .c).b 0 0 * 1 ∧
    (-((1 : ℚ) * 1) ≤ (exP.get .c).w 0 0 - ((updateParams exP exP (some 1) 1 false).params.get .c).w 0 0
      ∧ (exP.get .c).w 0 0 - ((updateParams exP exP (some 1) 1 false).params.get .c).w 0 0 ≤ 1 * 1) ∧
    (-((1 : ℚ) * 1) ≤ (exP.get .c).b 0 0 - ((updateParams exP exP (some 1) 1 false).params.get .c).b 0 0
      ∧ (exP.get .c).b 0 0 - ((updateParams exP exP (some 1) 1 false).params.get .c).b 0 0 ≤ 1 * 1) ∧
    ((updateParams exP exP none 1 false).params.get .c).w 0 0
      = (exP.get .c).w 0 0 - (exP.get .c).w 0 0 * 1 ∧
    ((updateParams exP exP none 1 false).params.get .c).b 0 0
      = (exP.get .c).b 0 0 - (exP.get .c).b 0 0 * 1) :=
  ⟨by norm_num, by norm_num,
   update_clips_then_steps exP exP 1 1 false .c 0 0 0 (by norm_num) (by norm_num)⟩

/-- Witness for claim C8 at concrete input: the empty sequence makes the
forward pass fail and fit returns the untouched params. -/
theorem no_partial_update_on_failure_witness :
    seqForward exP id id exDense ([] : List (Mat 1 1)) ([] : List (Mat 1 1)) none none = none
  ∧ fit exP id id exDense exDLoss exDBack exLoss none 1 false
      ([] : List (Mat 1 1)) ([] : List (Mat 1 1)) none none = (exP, none) :=
  ⟨rfl, no_partial_update_on_failure exP id id exDense exDLoss exDBack exLoss
    none 1 false [] [] none none rfl⟩

end LSTM
